import Mathlib

/-!
Verification of the virtualization engine of this repository
(`src/utils/virtualization-utils.ts`, `src/hooks/use-virtualization-dimensions.tsx`,
`src/hooks/use-visible-range.tsx`, `src/hooks/use-render-cells.tsx`,
`src/hooks/use-virtualization.tsx`).

JavaScript numbers are modelled by `JSVal`: a finite value (an exact rational;
rounding of IEEE doubles is not modelled), `+Infinity`, `-Infinity`, or `NaN`.
Where a computation stays within finite values and away from division by zero,
theorems are stated over plain rationals, via the bridging lemmas proved below.
-/

namespace Virtualization

/-- Model of a JavaScript number: a finite (exact) value, an infinity, or `NaN`. -/
inductive JSVal where
  | fin (q : ℚ)
  | posInf
  | negInf
  | nan
deriving DecidableEq, Repr

namespace JSVal

/-- Embed an integer as a JS number. -/
def ofInt (n : ℤ) : JSVal := fin (n : ℚ)

/-- JS addition. -/
def add : JSVal → JSVal → JSVal
  | nan, _ => nan
  | _, nan => nan
  | posInf, negInf => nan
  | negInf, posInf => nan
  | posInf, _ => posInf
  | _, posInf => posInf
  | negInf, _ => negInf
  | _, negInf => negInf
  | fin a, fin b => fin (a + b)

/-- JS negation. -/
def neg : JSVal → JSVal
  | nan => nan
  | posInf => negInf
  | negInf => posInf
  | fin a => fin (-a)

/-- JS subtraction. -/
def sub (a b : JSVal) : JSVal := add a (neg b)

/-- JS multiplication (`0 * Infinity = NaN`). -/
def mul : JSVal → JSVal → JSVal
  | nan, _ => nan
  | _, nan => nan
  | fin a, fin b => fin (a * b)
  | fin a, posInf => if a = 0 then nan else if 0 < a then posInf else negInf
  | posInf, fin a => if a = 0 then nan else if 0 < a then posInf else negInf
  | fin a, negInf => if a = 0 then nan else if 0 < a then negInf else posInf
  | negInf, fin a => if a = 0 then nan else if 0 < a then negInf else posInf
  | posInf, posInf => posInf
  | posInf, negInf => negInf
  | negInf, posInf => negInf
  | negInf, negInf => posInf

/-- JS division: `0/0 = NaN`, `x/0 = ±Infinity` for `x ≠ 0`
(the negative zero of IEEE is not modelled; no input of this development produces it). -/
def div : JSVal → JSVal → JSVal
  | nan, _ => nan
  | _, nan => nan
  | fin a, fin b =>
      if b = 0 then (if a = 0 then nan else if 0 < a then posInf else negInf)
      else fin (a / b)
  | fin _, posInf => fin 0
  | fin _, negInf => fin 0
  | posInf, fin a => if 0 ≤ a then posInf else negInf
  | negInf, fin a => if 0 ≤ a then negInf else posInf
  | posInf, posInf => nan
  | posInf, negInf => nan
  | negInf, posInf => nan
  | negInf, negInf => nan

/-- Model of `Math.floor`: `NaN` and the infinities are returned unchanged. -/
def floor : JSVal → JSVal
  | fin a => fin (Int.floor a : ℤ)
  | posInf => posInf
  | negInf => negInf
  | nan => nan

/-- Model of `Math.max` (binary): `NaN` if either argument is `NaN`. -/
def max : JSVal → JSVal → JSVal
  | nan, _ => nan
  | _, nan => nan
  | posInf, _ => posInf
  | _, posInf => posInf
  | negInf, x => x
  | x, negInf => x
  | fin a, fin b => fin (Max.max a b)

/-- Model of `Math.min` (binary): `NaN` if either argument is `NaN`. -/
def min : JSVal → JSVal → JSVal
  | nan, _ => nan
  | _, nan => nan
  | negInf, _ => negInf
  | _, negInf => negInf
  | posInf, x => x
  | x, posInf => x
  | fin a, fin b => fin (Min.min a b)

@[simp] theorem add_fin (a b : ℚ) : add (fin a) (fin b) = fin (a + b) := rfl

@[simp] theorem sub_fin (a b : ℚ) : sub (fin a) (fin b) = fin (a - b) := by
  simp [sub, add, neg, sub_eq_add_neg]

@[simp] theorem mul_fin (a b : ℚ) : mul (fin a) (fin b) = fin (a * b) := rfl

theorem div_fin (a b : ℚ) (hb : b ≠ 0) : div (fin a) (fin b) = fin (a / b) := by
  simp [div, hb]

@[simp] theorem floor_fin (a : ℚ) : floor (fin a) = fin (Int.floor a : ℤ) := rfl

@[simp] theorem max_fin (a b : ℚ) : max (fin a) (fin b) = fin (Max.max a b) := rfl

@[simp] theorem min_fin (a b : ℚ) : min (fin a) (fin b) = fin (Min.min a b) := rfl

end JSVal

/-- The outcome of invoking a user-supplied size function at one index:
it returns a number, returns a non-number value, or throws. -/
inductive FnOut where
  | ret (v : JSVal)
  | retNonNumber
  | throws

/-- A size specification: `number | SizeFunction` from
`src/types/virtualization.types.ts`. The constant carries an arbitrary JS
number; the function maps an index to an outcome. -/
inductive SizeSpec where
  | const (c : JSVal)
  | fn (f : ℤ → FnOut)

/-- Source `calculateSafeSize` (`src/utils/virtualization-utils.ts`, lines 69–96):
evaluates the spec at `index` inside a `try`, and returns the result when it is
a finite non-negative number, otherwise the fallback. The result is therefore
always a finite rational. -/
def calculateSafeSize (size : SizeSpec) (index : ℤ) (fallback : ℚ) : ℚ :=
  match size with
  | .const c =>
      match c with
      | .fin q => if q < 0 then fallback else q
      | _ => fallback
  | .fn f =>
      match f index with
      | .throws => fallback
      | .retNonNumber => fallback
      | .ret (.fin q) => if q < 0 then fallback else q
      | .ret _ => fallback

/-- Source `calculateCumulativeSize` (`src/utils/virtualization-utils.ts`, lines 26–43):
for a constant spec, `count * size` (unvalidated); for a function spec, a loop
over `i < count` accumulating `calculateSafeSize(size, startIndex + i, 0, "size")`
— note the hardcoded fallback `0`. A negative `count` runs the loop zero times,
as in JS. -/
def calculateCumulativeSize (count : ℤ) (size : SizeSpec) (startIndex : ℤ) : JSVal :=
  match size with
  | .const c => JSVal.mul (JSVal.ofInt count) c
  | .fn f =>
      .fin ((List.range count.toNat).foldl
        (fun (total : ℚ) (i : ℕ) =>
          total + calculateSafeSize (.fn f) (startIndex + (i : ℤ)) 0) 0)

/-- An additive left fold over `List.range` is the corresponding finite sum. -/
theorem foldl_add_range (g : ℕ → ℚ) (n : ℕ) :
    (List.range n).foldl (fun (t : ℚ) (i : ℕ) => t + g i) 0 =
      ∑ i ∈ Finset.range n, g i := by
  induction n with
  | zero => simp
  | succ m ih => rw [Finset.sum_range_succ, List.range_succ, List.foldl_append, ih]; simp

/-- The loop of `calculateCumulativeSize` accumulates exactly the finite sum of
the per-index safe sizes. -/
theorem cumulative_fn_eq_sum (f : ℤ → FnOut) (count : ℤ) (startIndex : ℤ) :
    calculateCumulativeSize count (.fn f) startIndex =
      .fin (∑ i ∈ Finset.range count.toNat,
        calculateSafeSize (.fn f) (startIndex + i) 0) := by
  show JSVal.fin _ = _
  rw [foldl_add_range (fun i : ℕ => calculateSafeSize (.fn f) (startIndex + (i : ℤ)) 0)]

/-- A safe size is never smaller than a non-negative fallback forced floor:
it is the validated (hence non-negative) value or the fallback. -/
theorem calculateSafeSize_nonneg (size : SizeSpec) (index : ℤ) (fallback : ℚ)
    (h : 0 ≤ fallback) : 0 ≤ calculateSafeSize size index fallback := by
  unfold calculateSafeSize
  cases size with
  | const c =>
      cases c with
      | fin q =>
          by_cases hq : q < 0
          · simp [hq, h]
          · simp [hq]; linarith
      | posInf => exact h
      | negInf => exact h
      | nan => exact h
  | fn f =>
      cases hf : f index with
      | ret v =>
          cases v with
          | fin q =>
              by_cases hq : q < 0
              · simp [hf, hq, h]
              · simp [hf, hq]; linarith
          | posInf => simp [hf, h]
          | negInf => simp [hf, h]
          | nan => simp [hf, h]
      | retNonNumber => simp [hf, h]
      | throws => simp [hf, h]

/-- Result of `createCellStyle` (`src/utils/virtualization-utils.ts`, lines 112–150):
the positioning fields of the returned CSS object. `top`/`left` are raw JS
arithmetic; `height`/`width` go through `calculateSafeSize` and are finite. -/
structure CellStyle where
  top : JSVal
  left : JSVal
  height : ℚ
  width : ℚ
deriving DecidableEq, Repr

/-- Source `createCellStyle` (`src/utils/virtualization-utils.ts`, lines 112–150):
position relative to the first visible row/column; constant sizes multiply the
relative index, function sizes accumulate from `firstVisibleRow`; `height`/
`width` are safe sizes at the cell's own index with fallbacks 50 and 100. -/
def createCellStyle (rowIndex columnIndex firstVisibleRow firstVisibleColumn : ℤ)
    (rowHeight columnWidth : SizeSpec) : CellStyle :=
  let relativeRowIndex := rowIndex - firstVisibleRow
  let relativeColumnIndex := columnIndex - firstVisibleColumn
  { top :=
      match rowHeight with
      | .const c => JSVal.mul (JSVal.ofInt relativeRowIndex) c
      | .fn f => calculateCumulativeSize relativeRowIndex (.fn f) firstVisibleRow
    left :=
      match columnWidth with
      | .const c => JSVal.mul (JSVal.ofInt relativeColumnIndex) c
      | .fn g => calculateCumulativeSize relativeColumnIndex (.fn g) firstVisibleColumn
    height := calculateSafeSize rowHeight rowIndex 50
    width := calculateSafeSize columnWidth columnIndex 100 }

/-- Value `totalHeight` of `useVirtualizationDimensions`
(`src/hooks/use-virtualization-dimensions.tsx`, lines 27–30). -/
def totalHeight (numRows : ℕ) (rowHeight : SizeSpec) : JSVal :=
  calculateCumulativeSize numRows rowHeight 0

/-- Value `totalWidth` of `useVirtualizationDimensions` (lines 31–34). -/
def totalWidth (numColumns : ℕ) (columnWidth : SizeSpec) : JSVal :=
  calculateCumulativeSize numColumns columnWidth 0

/-- Value `avgRowHeight` of `useVirtualizationDimensions` (lines 36–44): the constant
itself when the spec is a constant and `numRows > 0`, `totalHeight / numRows`
for a function spec with `numRows > 0`, and `0` when `numRows == 0`. -/
def avgRowHeight (numRows : ℕ) (rowHeight : SizeSpec) : JSVal :=
  match rowHeight with
  | .const c => if 0 < numRows then c else .fin 0
  | .fn f =>
      if 0 < numRows then
        JSVal.div (totalHeight numRows (.fn f)) (.fin numRows)
      else .fin 0

/-- Value `avgColumnWidth` of `useVirtualizationDimensions` (lines 46–54). -/
def avgColumnWidth (numColumns : ℕ) (columnWidth : SizeSpec) : JSVal :=
  match columnWidth with
  | .const c => if 0 < numColumns then c else .fin 0
  | .fn g =>
      if 0 < numColumns then
        JSVal.div (totalWidth numColumns (.fn g)) (.fin numColumns)
      else .fin 0

/-- The visible range held in the `useVisibleRange` state: inclusive 0-based
index bounds per axis (`src/types/virtualization.types.ts`). -/
structure VisibleRange where
  firstRow : ℤ
  lastRow : ℤ
  firstColumn : ℤ
  lastColumn : ℤ
deriving DecidableEq, Repr

/-- The `onScroll` range computation of `useVisibleRange`
(`src/hooks/use-visible-range.tsx`, lines 142–177), over exact rationals. This
is faithful to the JS computation whenever the average sizes are nonzero (see
`onScrollJS_fin`); the unguarded division by a zero average is analysed through
`onScrollJS`. -/
def onScroll (scrollTop scrollLeft containerHeight containerWidth : ℚ)
    (numRows numColumns : ℕ) (avgRowH avgColW : ℚ)
    (overscanRowCount overscanColumnCount : ℕ) : VisibleRange :=
  let firstVisibleRow := ⌊scrollTop / avgRowH⌋
  let lastVisibleRow := ⌊(scrollTop + containerHeight) / avgRowH⌋
  let firstVisibleColumn := ⌊scrollLeft / avgColW⌋
  let lastVisibleColumn := ⌊(scrollLeft + containerWidth) / avgColW⌋
  { firstRow := max 0 (firstVisibleRow - overscanRowCount)
    lastRow := min ((numRows : ℤ) - 1) (lastVisibleRow + overscanRowCount)
    firstColumn := max 0 (firstVisibleColumn - overscanColumnCount)
    lastColumn := min ((numColumns : ℤ) - 1) (lastVisibleColumn + overscanColumnCount) }

/-- The visible range with JS-number-valued bounds, for analysing the resolver
outside the finite regime. -/
structure JSRange where
  firstRow : JSVal
  lastRow : JSVal
  firstColumn : JSVal
  lastColumn : JSVal
deriving DecidableEq, Repr

/-- The `onScroll` range computation of `useVisibleRange`
(`src/hooks/use-visible-range.tsx`, lines 142–177), in full JS semantics:
`Math.floor(scrollTop / avgRowHeight)` with no guard on a zero average. -/
def onScrollJS (scrollTop scrollLeft containerHeight containerWidth : JSVal)
    (numRows numColumns : ℕ) (avgRowH avgColW : JSVal)
    (overscanRowCount overscanColumnCount : ℕ) : JSRange :=
  let firstVisibleRow := JSVal.floor (JSVal.div scrollTop avgRowH)
  let lastVisibleRow := JSVal.floor (JSVal.div (JSVal.add scrollTop containerHeight) avgRowH)
  let firstVisibleColumn := JSVal.floor (JSVal.div scrollLeft avgColW)
  let lastVisibleColumn := JSVal.floor (JSVal.div (JSVal.add scrollLeft containerWidth) avgColW)
  { firstRow := JSVal.max (.fin 0) (JSVal.sub firstVisibleRow (.fin overscanRowCount))
    lastRow := JSVal.min (JSVal.ofInt ((numRows : ℤ) - 1))
      (JSVal.add lastVisibleRow (.fin overscanRowCount))
    firstColumn := JSVal.max (.fin 0) (JSVal.sub firstVisibleColumn (.fin overscanColumnCount))
    lastColumn := JSVal.min (JSVal.ofInt ((numColumns : ℤ) - 1))
      (JSVal.add lastVisibleColumn (.fin overscanColumnCount)) }

/-- On finite inputs with nonzero average sizes, the JS computation of
`onScroll` agrees with the exact rational one. -/
theorem onScrollJS_fin (t l h w a b : ℚ) (numRows numColumns oR oC : ℕ)
    (ha : a ≠ 0) (hb : b ≠ 0) :
    onScrollJS (.fin t) (.fin l) (.fin h) (.fin w) numRows numColumns
        (.fin a) (.fin b) oR oC =
      { firstRow := .fin ((onScroll t l h w numRows numColumns a b oR oC).firstRow : ℚ)
        lastRow := .fin ((onScroll t l h w numRows numColumns a b oR oC).lastRow : ℚ)
        firstColumn := .fin ((onScroll t l h w numRows numColumns a b oR oC).firstColumn : ℚ)
        lastColumn := .fin ((onScroll t l h w numRows numColumns a b oR oC).lastColumn : ℚ) } := by
  simp only [onScrollJS, onScroll, JSVal.div_fin _ _ ha, JSVal.div_fin _ _ hb,
    JSVal.add_fin, JSVal.sub_fin, JSVal.floor_fin, JSVal.max_fin, JSVal.min_fin,
    JSVal.ofInt, JSRange.mk.injEq]
  refine ⟨?_, ?_, ?_, ?_⟩ <;> push_cast <;> rfl

/-- The scroll-correction effect of `useVisibleRange`
(`src/hooks/use-visible-range.tsx`, lines 99–140): clamps the current scroll
offsets into `[0, max(0, count * avgSize - containerExtent)]` per axis; the
write-back happens only when the clamped value differs, so the pure result is
the pair of clamped offsets. -/
def correctScroll (currentScrollTop currentScrollLeft : ℚ)
    (numRows numColumns : ℕ) (avgRowH avgColW containerHeight containerWidth : ℚ) :
    ℚ × ℚ :=
  let maxScrollTop := max 0 ((numRows : ℚ) * avgRowH - containerHeight)
  let maxScrollLeft := max 0 ((numColumns : ℚ) * avgColW - containerWidth)
  (min (max 0 currentScrollTop) maxScrollTop,
   min (max 0 currentScrollLeft) maxScrollLeft)

/-- Row-major list of the cell index pairs enumerated by the loops of
`useRenderCells` (`src/hooks/use-render-cells.tsx`, lines 28–48): rows from
`firstRow` to `lastRow` inclusive, columns nested; an inverted bound yields no
iterations, as in JS. -/
def rangeCellIndices (range : VisibleRange) : List (ℤ × ℤ) :=
  ((List.range (range.lastRow - range.firstRow + 1).toNat).map
      (fun i => range.firstRow + (i : ℤ))).flatMap
    (fun r => ((List.range (range.lastColumn - range.firstColumn + 1).toNat).map
      (fun j => range.firstColumn + (j : ℤ))).map (fun c => (r, c)))

/-- Source `useRenderCells` (`src/hooks/use-render-cells.tsx`, lines 25–51): invokes
the caller-supplied `children` for every cell of the range with the cell's
style. There is no `try`/`catch` around the invocation, so a throwing
`children` aborts the enumeration and the exception escapes — modelled by the
`Except` short-circuit of `mapM`. -/
def renderCells {α : Type} (range : VisibleRange) (rowHeight columnWidth : SizeSpec)
    (children : ℤ → ℤ → CellStyle → Except Unit α) : Except Unit (List α) :=
  (rangeCellIndices range).mapM
    (fun p => children p.1 p.2
      (createCellStyle p.1 p.2 range.firstRow range.firstColumn rowHeight columnWidth))

/-- The block-translation offset `scrollOffsetY` of `useVirtualization`
(`src/hooks/use-virtualization.tsx`, lines 78–81): `range.firstRow * rowHeight`
for a constant row height, `0` for a function-valued one. -/
def scrollOffsetY (rowHeight : SizeSpec) (range : VisibleRange) : JSVal :=
  match rowHeight with
  | .const c => JSVal.mul (JSVal.ofInt range.firstRow) c
  | .fn _ => .fin 0

/-- The block-translation offset `scrollOffsetX` of `useVirtualization`
(`src/hooks/use-virtualization.tsx`, lines 83–86). -/
def scrollOffsetX (columnWidth : SizeSpec) (range : VisibleRange) : JSVal :=
  match columnWidth with
  | .const c => JSVal.mul (JSVal.ofInt range.firstColumn) c
  | .fn _ => .fin 0

/-- A size function that throws at every index. -/
def throwAlways : ℤ → FnOut := fun _ => .throws

/-- C4 counterexample: `calculateCumulativeSize` does not use the
caller-provided fallback sizes (50 for row height, 100 for column width) for a
failing index — a single-element sum over an always-throwing size function is
`0`, not `50` or `100`. -/
theorem c4_claim_counterexample :
    calculateCumulativeSize 1 (.fn throwAlways) 0 = .fin 0 ∧
    (JSVal.fin 0 ≠ JSVal.fin 50) ∧ (JSVal.fin 0 ≠ JSVal.fin 100) := by
  refine ⟨?_, by decide, by decide⟩
  simp [calculateCumulativeSize, calculateSafeSize, throwAlways, List.range_succ]

/-- C4 (amended): for every function-valued spec, count and start index,
`calculateCumulativeSize` is the sum over `i ∈ [0, count)` of the per-index
safe size, with error containment identical to `calculateSafeSize` but with the
hardcoded fallback `0` (not the caller-provided 50/100): an index whose
function throws, returns a non-number, a non-finite number, or a negative
number contributes `0` to the sum. -/
theorem c4_cumulative_sum (f : ℤ → FnOut) (count : ℤ) (startIndex : ℤ) :
    (calculateCumulativeSize count (.fn f) startIndex =
      .fin (∑ i ∈ Finset.range count.toNat,
        calculateSafeSize (.fn f) (startIndex + (i : ℤ)) 0)) ∧
    (∀ i : ℤ, f i = .throws ∨ f i = .retNonNumber ∨ f i = .ret .nan ∨
        f i = .ret .posInf → calculateSafeSize (.fn f) i 0 = 0) ∧
    (∀ (i : ℤ) (q : ℚ), f i = .ret (.fin q) → q < 0 →
        calculateSafeSize (.fn f) i 0 = 0) := by
  refine ⟨cumulative_fn_eq_sum f count startIndex, ?_, ?_⟩
  · intro i hi
    rcases hi with hi | hi | hi | hi <;> simp [calculateSafeSize, hi]
  · intro i q hi hq
    simp [calculateSafeSize, hi, hq]

/-- C4 witness: a throwing index contributes the hardcoded fallback `0`. -/
theorem c4_cumulative_sum_witness :
    calculateSafeSize (.fn throwAlways) 0 0 = 0 :=
  (c4_cumulative_sum throwAlways 1 0).2.1 0 (Or.inl rfl)

/-- C9: for every function-valued spec, `calculateCumulativeSize` returns a
finite non-negative number whatever the size function returns or throws at any
index; the second conjunct shows the guarantee indeed fails for constant
specs, whose multiplication is unvalidated (a negative constant yields a
negative total). -/
theorem c9_cumulative_total_nonneg :
    (∀ (f : ℤ → FnOut) (count startIndex : ℤ),
      ∃ q : ℚ, calculateCumulativeSize count (.fn f) startIndex = .fin q ∧ 0 ≤ q) ∧
    calculateCumulativeSize 1 (.const (.fin (-5))) 0 = .fin (-5) := by
  constructor
  · intro f count startIndex
    refine ⟨_, cumulative_fn_eq_sum f count startIndex, ?_⟩
    exact Finset.sum_nonneg fun i _ => calculateSafeSize_nonneg _ _ _ le_rfl
  · show JSVal.mul (JSVal.ofInt 1) (.fin (-5)) = .fin (-5)
    rw [JSVal.ofInt]
    norm_num

/-- C5 counterexample: for `rowCount == 0` and constant `rowHeight = 50`, the
dimension calculator yields `avgRowHeight = 0`, not the constant `50` as the
claim states for that case. -/
theorem c5_claim_counterexample :
    avgRowHeight 0 (.const (.fin 50)) = .fin 0 ∧ JSVal.fin 0 ≠ JSVal.fin 50 := by
  decide

/-- C5 (amended): for all counts and constant sizes,
`totalHeight == rowCount * rowHeight` (also when `rowCount == 0`), and
`avgRowHeight == rowHeight` whenever `rowCount > 0`, but `avgRowHeight == 0`
when `rowCount == 0`; symmetrically for columns. -/
theorem c5_constant_dimensions (numRows numColumns : ℕ) (q p : ℚ) :
    totalHeight numRows (.const (.fin q)) = .fin ((numRows : ℚ) * q) ∧
    totalWidth numColumns (.const (.fin p)) = .fin ((numColumns : ℚ) * p) ∧
    (0 < numRows → avgRowHeight numRows (.const (.fin q)) = .fin q) ∧
    (numRows = 0 → avgRowHeight numRows (.const (.fin q)) = .fin 0) ∧
    (0 < numColumns → avgColumnWidth numColumns (.const (.fin p)) = .fin p) ∧
    (numColumns = 0 → avgColumnWidth numColumns (.const (.fin p)) = .fin 0) := by
  refine ⟨?_, ?_, ?_, ?_, ?_, ?_⟩
  · simp [totalHeight, calculateCumulativeSize, JSVal.ofInt]
  · simp [totalWidth, calculateCumulativeSize, JSVal.ofInt]
  · intro hn; simp [avgRowHeight, hn]
  · intro hn; simp [avgRowHeight, hn]
  · intro hn; simp [avgColumnWidth, hn]
  · intro hn; simp [avgColumnWidth, hn]

/-- C5 witness: at `rowCount = 10, rowHeight = 50` the average is the constant;
at `columnCount = 0, columnWidth = 100` it is `0`. -/
theorem c5_constant_dimensions_witness :
    avgRowHeight 10 (.const (.fin 50)) = .fin 50 ∧
    avgColumnWidth 0 (.const (.fin 100)) = .fin 0 :=
  ⟨(c5_constant_dimensions 10 0 50 100).2.2.1 (by norm_num),
   (c5_constant_dimensions 10 0 50 100).2.2.2.2.2 rfl⟩

/-- C8: `createCellStyle` positions a cell relative to
`range.firstRow`/`range.firstColumn`: for constant sizes
`top = (rowIndex - firstRow) * rowHeight`, for function sizes
`top = calculateCumulativeSize(rowIndex - firstRow, rowHeight, firstRow)` —
which is the finite sum of safe sizes starting at `firstRow` — and the cell's
`height`/`width` are the safe size of the spec at the cell's own index with
fallbacks 50 and 100. -/
theorem c8_cell_layout (rowIndex columnIndex firstRow firstCol : ℤ) (q p : ℚ)
    (f g : ℤ → FnOut) (rh cw : SizeSpec) :
    ((createCellStyle rowIndex columnIndex firstRow firstCol
        (.const (.fin q)) (.const (.fin p))).top
      = .fin (((rowIndex - firstRow : ℤ) : ℚ) * q)) ∧
    ((createCellStyle rowIndex columnIndex firstRow firstCol
        (.const (.fin q)) (.const (.fin p))).left
      = .fin (((columnIndex - firstCol : ℤ) : ℚ) * p)) ∧
    ((createCellStyle rowIndex columnIndex firstRow firstCol
        (.fn f) (.fn g)).top
      = calculateCumulativeSize (rowIndex - firstRow) (.fn f) firstRow) ∧
    ((createCellStyle rowIndex columnIndex firstRow firstCol
        (.fn f) (.fn g)).left
      = calculateCumulativeSize (columnIndex - firstCol) (.fn g) firstCol) ∧
    ((createCellStyle rowIndex columnIndex firstRow firstCol
        (.fn f) (.fn g)).top
      = .fin (∑ i ∈ Finset.range (rowIndex - firstRow).toNat,
          calculateSafeSize (.fn f) (firstRow + (i : ℤ)) 0)) ∧
    ((createCellStyle rowIndex columnIndex firstRow firstCol rh cw).height
      = calculateSafeSize rh rowIndex 50) ∧
    ((createCellStyle rowIndex columnIndex firstRow firstCol rh cw).width
      = calculateSafeSize cw columnIndex 100) := by
  refine ⟨rfl, rfl, rfl, rfl, ?_, rfl, rfl⟩
  exact cumulative_fn_eq_sum f (rowIndex - firstRow) firstRow

/-- C10: the orchestrator's block-translation offsets are
`range.firstRow * rowHeight` for a constant row height and `0` for a
function-valued one; symmetrically for columns. -/
theorem c10_scroll_offsets (range : VisibleRange) (q p : ℚ)
    (f g : ℤ → FnOut) :
    scrollOffsetY (.const (.fin q)) range = .fin ((range.firstRow : ℚ) * q) ∧
    scrollOffsetY (.fn f) range = .fin 0 ∧
    scrollOffsetX (.const (.fin p)) range = .fin ((range.firstColumn : ℚ) * p) ∧
    scrollOffsetX (.fn g) range = .fin 0 :=
  ⟨rfl, rfl, rfl, rfl⟩

/-- Lemma: `totalWidth`/`avgColumnWidth` are the same computations as
`totalHeight`/`avgRowHeight` applied to the column inputs. -/
theorem avgColumnWidth_eq_avgRowHeight (n : ℕ) (s : SizeSpec) :
    avgColumnWidth n s = avgRowHeight n s := by
  cases s <;> rfl

/-- Whenever the dimension calculator produces finite `avgRowHeight` and
`totalHeight`, they satisfy `count * avg = total`. -/
theorem count_mul_avg_eq_total (numRows : ℕ) (spec : SizeSpec) (qa qt : ℚ)
    (hA : avgRowHeight numRows spec = .fin qa)
    (hT : totalHeight numRows spec = .fin qt) :
    (numRows : ℚ) * qa = qt := by
  cases spec with
  | const c =>
      rcases Nat.eq_zero_or_pos numRows with hn | hn
      · subst hn
        simp only [avgRowHeight, lt_self_iff_false, if_false] at hA
        cases c with
        | fin b =>
            have h0 : totalHeight 0 (.const (.fin b))
                = .fin ((((0 : ℕ) : ℤ) : ℚ) * b) := rfl
            rw [h0] at hT
            injection hA with hA
            injection hT with hT
            rw [← hA, ← hT]
            push_cast
            ring
        | posInf => simp [totalHeight, calculateCumulativeSize, JSVal.ofInt, JSVal.mul] at hT
        | negInf => simp [totalHeight, calculateCumulativeSize, JSVal.ofInt, JSVal.mul] at hT
        | nan => simp [totalHeight, calculateCumulativeSize, JSVal.ofInt, JSVal.mul] at hT
      · simp only [avgRowHeight, hn, if_pos] at hA
        subst hA
        have h0 : totalHeight numRows (.const (.fin qa))
            = .fin (((numRows : ℤ) : ℚ) * qa) := rfl
        rw [h0] at hT
        exact_mod_cast JSVal.fin.inj hT
  | fn f =>
      rcases Nat.eq_zero_or_pos numRows with hn | hn
      · subst hn
        simp only [avgRowHeight, lt_self_iff_false, if_false] at hA
        rw [show totalHeight 0 (.fn f) = .fin 0 by
          rw [totalHeight, cumulative_fn_eq_sum]; norm_num] at hT
        injection hA with hA
        injection hT with hT
        rw [← hA, ← hT]
        ring
      · have hnz : ((numRows : ℚ)) ≠ 0 := by positivity
        rw [totalHeight, cumulative_fn_eq_sum] at hT
        injection hT with hT
        simp only [avgRowHeight, hn, if_pos] at hA
        rw [totalHeight, cumulative_fn_eq_sum,
          JSVal.div_fin _ _ hnz] at hA
        injection hA with hA
        rw [← hA, hT, mul_div_cancel₀ _ hnz]

/-- C6: the scroll-position corrector clamps each stored offset into
`[0, max(0, total - viewportExtent)]`, where `total` is the corresponding
finite total extent of the dimension calculator (the code's
`numRows * avgRowHeight` equals `totalHeight` by `count_mul_avg_eq_total`);
and when the stored offsets are already within those bounds the corrector
returns them unchanged. -/
theorem c6_correct_scroll (numRows numColumns : ℕ) (rh cw : SizeSpec)
    (qa qb tq tw : ℚ)
    (hA : avgRowHeight numRows rh = .fin qa)
    (hT : totalHeight numRows rh = .fin tq)
    (hB : avgColumnWidth numColumns cw = .fin qb)
    (hW : totalWidth numColumns cw = .fin tw)
    (cur curL h w : ℚ) :
    (0 ≤ (correctScroll cur curL numRows numColumns qa qb h w).1 ∧
     (correctScroll cur curL numRows numColumns qa qb h w).1 ≤ max 0 (tq - h) ∧
     0 ≤ (correctScroll cur curL numRows numColumns qa qb h w).2 ∧
     (correctScroll cur curL numRows numColumns qa qb h w).2 ≤ max 0 (tw - w)) ∧
    (0 ≤ cur → cur ≤ max 0 (tq - h) → 0 ≤ curL → curL ≤ max 0 (tw - w) →
      correctScroll cur curL numRows numColumns qa qb h w = (cur, curL)) := by
  have hrow : (numRows : ℚ) * qa = tq := count_mul_avg_eq_total numRows rh qa tq hA hT
  have hcol : (numColumns : ℚ) * qb = tw := by
    refine count_mul_avg_eq_total numColumns cw qb tw ?_ hW
    rw [← avgColumnWidth_eq_avgRowHeight]
    exact hB
  simp only [correctScroll, hrow, hcol]
  constructor
  · refine ⟨le_min (le_max_left _ _) (le_max_left _ _), min_le_right _ _,
      le_min (le_max_left _ _) (le_max_left _ _), min_le_right _ _⟩
  · intro h1 h2 h3 h4
    rw [max_eq_right h1, max_eq_right h3, min_eq_left h2, min_eq_left h4]

/-- C6 witness: a `10 × 5` grid of `50 × 100` cells in a `400 × 500` viewport
with in-bounds scroll `(50, 0)` is left unchanged by the corrector. -/
theorem c6_correct_scroll_witness :
    correctScroll 50 0 10 5 50 100 400 500 = (50, 0) :=
  (c6_correct_scroll 10 5 (.const (.fin 50)) (.const (.fin 100)) 50 100 500 500
      (by decide) (by norm_num [totalHeight, calculateCumulativeSize, JSVal.ofInt])
      (by decide) (by norm_num [totalWidth, calculateCumulativeSize, JSVal.ofInt])
      50 0 400 500).2
    (by norm_num) (by norm_num) (by norm_num) (by norm_num)

/-- C7: for a fixed viewport, scroll offset, grid shape and positive average
sizes, increasing `overscanRowCount` never shrinks the resolved row range:
the range resolved with the larger overscan contains the one resolved with the
smaller. -/
theorem c7_overscan_monotone (t l h w a b : ℚ) (numRows numColumns : ℕ)
    (o1 o2 oC : ℕ) (_ha : 0 < a) (_hb : 0 < b) (h12 : o1 ≤ o2) :
    (onScroll t l h w numRows numColumns a b o2 oC).firstRow ≤
      (onScroll t l h w numRows numColumns a b o1 oC).firstRow ∧
    (onScroll t l h w numRows numColumns a b o1 oC).lastRow ≤
      (onScroll t l h w numRows numColumns a b o2 oC).lastRow := by
  have h12' : (o1 : ℤ) ≤ (o2 : ℤ) := Int.ofNat_le.mpr h12
  simp only [onScroll]
  exact ⟨max_le_max le_rfl (sub_le_sub_left h12' _),
    min_le_min le_rfl (add_le_add_left h12' _)⟩

/-- C7 witness: overscan 0 versus 2 on a concrete scrolled grid. -/
theorem c7_overscan_monotone_witness :
    (0 : ℚ) < 50 ∧
    (onScroll 100 0 400 500 20 10 50 100 2 1).firstRow ≤
      (onScroll 100 0 400 500 20 10 50 100 0 1).firstRow ∧
    (onScroll 100 0 400 500 20 10 50 100 0 1).lastRow ≤
      (onScroll 100 0 400 500 20 10 50 100 2 1).lastRow :=
  ⟨by norm_num,
   c7_overscan_monotone 100 0 400 500 50 100 20 10 0 2 1 (by norm_num)
     (by norm_num) (by norm_num)⟩

/-- C3 counterexample: with `avgRowHeight == 0` and `scroll.top == 0` the
resolver's `firstRow` is `NaN` — the division `scrollTop / avgRowHeight`
is not guarded, so the claimed `firstVisible = 0` does not hold. -/
theorem c3_claim_counterexample :
    (onScrollJS (.fin 0) (.fin 0) (.fin 400) (.fin 500) 10 5
        (.fin 0) (.fin 100) 1 1).firstRow = JSVal.nan ∧
    JSVal.nan ≠ JSVal.fin 0 := by
  constructor
  · show JSVal.max (.fin 0)
        (JSVal.sub (JSVal.floor (JSVal.div (.fin 0) (.fin 0))) (.fin 1)) = JSVal.nan
    norm_num [JSVal.div, JSVal.floor, JSVal.sub, JSVal.add, JSVal.neg, JSVal.max]
  · decide

/-- C3 (amended): the division by the average size is not guarded. When
`avgRowHeight == 0`, the resolver computes `firstRow = NaN` for
`scroll.top == 0` and `firstRow = +Infinity` for `scroll.top > 0`, rather than
a well-defined integer bound. -/
theorem c3_unguarded_division (t : ℚ) (ht : 0 ≤ t) (l ch cw avgW : JSVal)
    (numRows numColumns oR oC : ℕ) :
    (onScrollJS (.fin t) l ch cw numRows numColumns (.fin 0) avgW oR oC).firstRow
      = if t = 0 then JSVal.nan else JSVal.posInf := by
  rcases eq_or_lt_of_le ht with h0 | hpos
  · rw [if_pos h0.symm, ← h0]
    show JSVal.max (.fin 0)
        (JSVal.sub (JSVal.floor (JSVal.div (.fin 0) (.fin 0))) (.fin oR)) = JSVal.nan
    norm_num [JSVal.div, JSVal.floor, JSVal.sub, JSVal.add, JSVal.neg, JSVal.max]
  · rw [if_neg (by positivity : ¬ t = 0)]
    show JSVal.max (.fin 0)
        (JSVal.sub (JSVal.floor (JSVal.div (.fin t) (.fin 0))) (.fin oR)) = JSVal.posInf
    rw [JSVal.div]
    rw [if_pos rfl, if_neg (by positivity : ¬ t = 0), if_pos hpos]
    rfl

/-- C3 witness: at `scroll.top = 1` over a zero average row height the
resolver's `firstRow` is `+Infinity`. -/
theorem c3_unguarded_division_witness :
    (0 : ℚ) ≤ 1 ∧
    (onScrollJS (.fin 1) (.fin 0) (.fin 400) (.fin 500) 10 5
        (.fin 0) (.fin 100) 1 1).firstRow
      = if (1 : ℚ) = 0 then JSVal.nan else JSVal.posInf :=
  ⟨by norm_num,
   c3_unguarded_division 1 (by norm_num) (.fin 0) (.fin 400) (.fin 500)
     (.fin 100) 10 5 1 1⟩

/-- With a positive viewport extent, an in-bounds scroll offset and a positive
average size, the first visible index is at most `count - 1`. -/
theorem floor_div_le_count_sub_one (t h a : ℚ) (n : ℕ) (hh : 0 < h) (ha : 0 < a)
    (ht0 : 0 ≤ t) (htM : t ≤ max 0 ((n : ℚ) * a - h)) (hn : 0 < n) :
    ⌊t / a⌋ ≤ (n : ℤ) - 1 := by
  have hn1 : (1 : ℤ) ≤ (n : ℤ) := by exact_mod_cast hn
  rcases le_or_lt ((n : ℚ) * a - h) 0 with hc | hc
  · have ht : t = 0 := le_antisymm (by rwa [max_eq_left hc] at htM) ht0
    rw [ht, zero_div, Int.floor_zero]
    omega
  · have ht : t ≤ (n : ℚ) * a - h := by rwa [max_eq_right hc.le] at htM
    have hlt : t / a < (n : ℚ) := by
      rw [div_lt_iff₀ ha]
      linarith
    have hfl : ⌊t / a⌋ < (n : ℤ) := Int.floor_lt.mpr (by exact_mod_cast hlt)
    omega

/-- Bounds of one axis of the `onScroll` resolver for a non-empty axis:
the overscanned, clamped bounds are ordered and lie within `[0, count - 1]`. -/
theorem onScroll_axis_bounds (t h a : ℚ) (n o : ℕ) (hh : 0 < h) (ha : 0 < a)
    (ht0 : 0 ≤ t) (htM : t ≤ max 0 ((n : ℚ) * a - h)) (hn : 0 < n) :
    0 ≤ max 0 (⌊t / a⌋ - (o : ℤ)) ∧
    max 0 (⌊t / a⌋ - (o : ℤ)) ≤ min ((n : ℤ) - 1) (⌊(t + h) / a⌋ + (o : ℤ)) ∧
    min ((n : ℤ) - 1) (⌊(t + h) / a⌋ + (o : ℤ)) ≤ (n : ℤ) - 1 := by
  have h1 : 0 ≤ ⌊t / a⌋ := Int.floor_nonneg.mpr (div_nonneg ht0 ha.le)
  have h2 : ⌊t / a⌋ ≤ ⌊(t + h) / a⌋ :=
    Int.floor_le_floor ((div_le_div_iff_of_pos_right ha).mpr (by linarith))
  have h3 : ⌊t / a⌋ ≤ (n : ℤ) - 1 :=
    floor_div_le_count_sub_one t h a n hh ha ht0 htM hn
  have hn1 : (1 : ℤ) ≤ (n : ℤ) := by exact_mod_cast hn
  have ho : (0 : ℤ) ≤ (o : ℤ) := Int.ofNat_nonneg o
  refine ⟨le_max_left _ _, le_min (max_le (by linarith) (by linarith))
    (max_le (by linarith) (by linarith)), min_le_left _ _⟩

/-- An axis with count `0` always resolves to an inverted (empty) range:
`lastIndex = min (-1) … < 0 ≤ firstIndex`. -/
theorem onScroll_axis_empty (x y : ℤ) (o : ℕ) :
    min (((0 : ℕ) : ℤ) - 1) (y + (o : ℤ)) < max 0 (x - (o : ℤ)) :=
  lt_of_le_of_lt (min_le_left _ _) (lt_of_lt_of_le (by norm_num) (le_max_left _ _))

/-- C1 counterexample: with a zero-height viewport, zero overscan, a one-row
grid of height 50 and the in-bounds scroll offset `top = 50`
(`max(0, totalHeight - viewport.height) = 50`), the resolver yields
`firstRow = 1 > lastRow = 0`, violating the claimed
`0 ≤ firstRow ≤ lastRow ≤ rowCount - 1`. -/
theorem c1_claim_counterexample :
    ((0 : ℚ) ≤ 50 ∧ (50 : ℚ) ≤ max 0 ((1 : ℚ) * 50 - 0) ∧ (0 : ℚ) < 50) ∧
    (onScroll 50 0 0 500 1 5 50 100 0 0).lastRow <
      (onScroll 50 0 0 500 1 5 50 100 0 0).firstRow := by
  constructor
  · norm_num
  · show min ((1 : ℤ) - 1) (⌊((50 : ℚ) + 0) / 50⌋ + (0 : ℤ)) <
      max 0 (⌊(50 : ℚ) / 50⌋ - (0 : ℤ))
    norm_num

/-- C1 (amended): for every positive viewport, in-bounds scroll offset,
positive average sizes and non-negative overscan, the resolved range satisfies
`0 ≤ firstRow ≤ lastRow ≤ rowCount - 1` when both counts are positive
(symmetrically for columns), and a zero count on a dimension yields an
inverted — empty — range on that dimension. (The original claim, which also
admits zero-extent viewports, fails: see the counterexample.) -/
theorem c1_range_bounds (t l h w a b : ℚ) (numRows numColumns oR oC : ℕ)
    (hh : 0 < h) (hw : 0 < w) (ha : 0 < a) (hb : 0 < b)
    (ht0 : 0 ≤ t) (htM : t ≤ max 0 ((numRows : ℚ) * a - h))
    (hl0 : 0 ≤ l) (hlM : l ≤ max 0 ((numColumns : ℚ) * b - w)) :
    (0 < numRows → 0 < numColumns →
      0 ≤ (onScroll t l h w numRows numColumns a b oR oC).firstRow ∧
      (onScroll t l h w numRows numColumns a b oR oC).firstRow ≤
        (onScroll t l h w numRows numColumns a b oR oC).lastRow ∧
      (onScroll t l h w numRows numColumns a b oR oC).lastRow ≤ (numRows : ℤ) - 1 ∧
      0 ≤ (onScroll t l h w numRows numColumns a b oR oC).firstColumn ∧
      (onScroll t l h w numRows numColumns a b oR oC).firstColumn ≤
        (onScroll t l h w numRows numColumns a b oR oC).lastColumn ∧
      (onScroll t l h w numRows numColumns a b oR oC).lastColumn ≤
        (numColumns : ℤ) - 1) ∧
    (numRows = 0 →
      (onScroll t l h w numRows numColumns a b oR oC).lastRow <
        (onScroll t l h w numRows numColumns a b oR oC).firstRow) ∧
    (numColumns = 0 →
      (onScroll t l h w numRows numColumns a b oR oC).lastColumn <
        (onScroll t l h w numRows numColumns a b oR oC).firstColumn) := by
  simp only [onScroll]
  refine ⟨?_, ?_, ?_⟩
  · intro hr hc
    obtain ⟨r1, r2, r3⟩ := onScroll_axis_bounds t h a numRows oR hh ha ht0 htM hr
    obtain ⟨c1, c2, c3⟩ := onScroll_axis_bounds l w b numColumns oC hw hb hl0 hlM hc
    exact ⟨r1, r2, r3, c1, c2, c3⟩
  · intro hr
    subst hr
    exact onScroll_axis_empty _ _ _
  · intro hc
    subst hc
    exact onScroll_axis_empty _ _ _

/-- C1 witness: the spec's first concrete scenario with overscan 1 on both
axes satisfies all hypotheses of the amended bound theorem. -/
theorem c1_range_bounds_witness :
    ((0 : ℚ) < 400 ∧ (0 : ℚ) ≤ max 0 ((10 : ℚ) * 50 - 400)) ∧
    ((0 < 10 → 0 < 5 →
      0 ≤ (onScroll 0 0 400 500 10 5 50 100 1 1).firstRow ∧
      (onScroll 0 0 400 500 10 5 50 100 1 1).firstRow ≤
        (onScroll 0 0 400 500 10 5 50 100 1 1).lastRow ∧
      (onScroll 0 0 400 500 10 5 50 100 1 1).lastRow ≤ (10 : ℤ) - 1 ∧
      0 ≤ (onScroll 0 0 400 500 10 5 50 100 1 1).firstColumn ∧
      (onScroll 0 0 400 500 10 5 50 100 1 1).firstColumn ≤
        (onScroll 0 0 400 500 10 5 50 100 1 1).lastColumn ∧
      (onScroll 0 0 400 500 10 5 50 100 1 1).lastColumn ≤ (5 : ℤ) - 1) ∧
    (10 = 0 →
      (onScroll 0 0 400 500 10 5 50 100 1 1).lastRow <
        (onScroll 0 0 400 500 10 5 50 100 1 1).firstRow) ∧
    (5 = 0 →
      (onScroll 0 0 400 500 10 5 50 100 1 1).lastColumn <
        (onScroll 0 0 400 500 10 5 50 100 1 1).firstColumn)) :=
  ⟨⟨by norm_num, by norm_num⟩,
   c1_range_bounds 0 0 400 500 50 100 10 5 1 1 (by norm_num) (by norm_num)
     (by norm_num) (by norm_num) (by norm_num) (by norm_num) (by norm_num)
     (by norm_num)⟩

/-- A render callback that throws exactly at cell `(1, 1)` and otherwise
returns the cell's index pair. -/
def erroringChildren : ℤ → ℤ → CellStyle → Except Unit (ℤ × ℤ) :=
  fun r c _ => if r = 1 ∧ c = 1 then .error () else .ok (r, c)

/-- C2: at the failing input — the `2 × 2` range with a render callback that
throws at cell `(1, 1)` — the enumeration of `useRenderCells` covers all four
cells, but the exception escapes the enumeration instead of being replaced by
a placeholder for the one cell: the callback invocation has no `try`/`catch`. -/
theorem c2_render_error_escapes :
    rangeCellIndices ⟨0, 1, 0, 1⟩ = [(0, 0), (0, 1), (1, 0), (1, 1)] ∧
    renderCells ⟨0, 1, 0, 1⟩ (.const (.fin 50)) (.const (.fin 100))
      erroringChildren = .error () := by
  constructor
  · rfl
  · rfl

end Virtualization
